import Mathlib

/-!
Shallow embedding of `research/src/suite.py` (class `TestSuite`): the
rate-limited producer, the queue consumer, the parallel fan-out runner and
the orchestrator data flow, together with the suite state touched by the
stress tests.

Time is modelled by the rationals: `time.time()` values and sleep durations
are `ℚ`.  The producer's environment is given by two oracles: `stop i`, the
value of `self.stress_tests_finished` observed at the i-th loop check, and
`slp i q`, the actual duration of the i-th `time.sleep` call when `q`
seconds were requested (a real sleep may overrun the request).
-/

/-- A synthetic workload row: the tuple yielded by the workload generator.
The suite destructures `film_id, user_id, *_`, so the model keeps the two
identifier components and an opaque rest. -/
structure Row where
  film_id : Nat
  user_id : Nat
  payload : Nat
deriving DecidableEq, Repr

/-- Modelled from the spec: the Workload Generator `generate(count)`
(the repository's `data.test_data`, which is not under `src/`) produces a
finite sequence of exactly `count` synthetic rows, fresh per call.  It is
modelled as a list of `count` pairwise distinct rows. -/
def test_data (n : Nat) : List Row :=
  (List.range n).map (fun i => ⟨i, i, i⟩)

/-- One loop iteration of `TestSuite.produce` (suite.py lines 228-236):
the row pushed with `put_nowait`, the clock value at the push, the value of
`next_produce` after the `+= period` increment (the target time of the next
row), and the sleep amount actually requested, i.e. the Python idiom
`sleep_time > 0 and sleep_time or 0`. -/
structure EmitStep where
  time : ℚ
  row : Row
  target : ℚ
  requested : ℚ
deriving DecidableEq, Repr

/-- The loop of `TestSuite.produce` (suite.py lines 228-236), from loop
index `i`, current clock `now` and current `next_produce` value `np`.
Returns the emission steps together with the clock value at which the loop
exits (by `break` on the stop signal or by exhausting `data`). -/
def produceSteps (period : ℚ) (stop : Nat → Bool) (slp : Nat → ℚ → ℚ) :
    List Row → Nat → ℚ → ℚ → List EmitStep × ℚ
  | [], _, now, _ => ([], now)
  | r :: rs, i, now, np =>
      if stop i then ([], now)
      else
        let np2 := np + period
        let req := max 0 (np2 - now)
        let tl := produceSteps period stop slp rs (i + 1) (now + slp i req) np2
        (⟨now, r, np2, req⟩ :: tl.1, tl.2)

/-- `TestSuite.produce` (suite.py lines 225-238) run from the top:
`next_produce = time.time()` equals the start clock, loop index 0. -/
def produceFrom (data : List Row) (period : ℚ) (stop : Nat → Bool)
    (slp : Nat → ℚ → ℚ) (start : ℚ) : List EmitStep × ℚ :=
  produceSteps period stop slp data 0 start start

/-- The sequence of items one `produce` call pushes into the shared queue:
each emitted row (line 232), then the single unconditional
`self.queue.put(None)` of line 238.  `Option.none` is the sentinel. -/
def produceQueue (data : List Row) (period : ℚ) (stop : Nat → Bool)
    (slp : Nat → ℚ → ℚ) (start : ℚ) : List (Option Row) :=
  ((produceFrom data period stop slp start).1.map (fun s => some s.row)) ++ [Option.none]

/-- The rows emitted by one `produce` call, in order. -/
def emittedRows (data : List Row) (period : ℚ) (stop : Nat → Bool)
    (slp : Nat → ℚ → ℚ) (start : ℚ) : List Row :=
  (produceFrom data period stop slp start).1.map (fun s => s.row)

/-- Number of sentinels in a list of queue items. -/
def sentinelCount (items : List (Option Row)) : Nat :=
  (items.filter (fun x => x.isNone)).length

/-- `TestSuite.iter_queue` (suite.py lines 244-249).  `items` is the
sequence of values successive blocking `self.queue.get()` calls return.
The generator yields each row until the first sentinel, on which it
returns; if the supply is exhausted with no sentinel the `get` blocks
forever, modelled as `Option.none` (the drain never returns). -/
def iter_queue : List (Option Row) → Option (List Row)
  | [] => Option.none
  | Option.none :: _ => some []
  | some r :: rest => (iter_queue rest).map (fun l => r :: l)

/-- The observable write state of one backend handle: the rows that have
been handed to its `insert_data` bulk-write path. -/
structure ClientState where
  inserted : List Row
deriving DecidableEq, Repr

/-- `TestSuite.consume` (suite.py lines 240-242): drains the queue through
`iter_queue` into `client.insert_data`; `Option.none` when the drain never
returns (so nothing is ever handed to the backend). -/
def consume (c : ClientState) (items : List (Option Row)) : Option ClientState :=
  (iter_queue items).map (fun rows => ⟨c.inserted ++ rows⟩)

/-- `list(pool.map(client_method, clients))` (suite.py lines 201-204):
results are collected in submission order and the first worker exception
encountered during that iteration propagates, discarding everything
else. -/
def collectResults {ε : Type} : List (Except ε ℚ) → Except ε (List ℚ)
  | [] => Except.ok []
  | Except.error e :: _ => Except.error e
  | Except.ok q :: rest => (collectResults rest).map (fun l => q :: l)

/-- One invocation of the fan-out runner, with every observable of
`TestSuite.run_in_parallel`: the size the `ThreadPoolExecutor` was built
with, the clone handed to each worker, and the collected outcome. -/
structure FanOutCall (C : Type) (ε : Type) where
  poolSize : Nat
  workers : List C
  results : Except ε (List ℚ)
deriving Repr

/-- `TestSuite.run_in_parallel` (suite.py lines 193-204).  `copy` is the
backend handle's `copy()` method, `client_method` the measurement bound to
one handle (which may raise, hence `Except`).  Line 199 builds
`[client.copy() for _ in range(threads_count)]`; lines 201-204 run the
method once per clone on a pool of exactly `threads_count` workers and
collect the results. -/
def run_in_parallel {C ε : Type} (copy : C → C) (client : C)
    (client_method : C → Except ε ℚ) (threads_count : Nat) : FanOutCall C ε :=
  let clients := (List.range threads_count).map (fun _ => copy client)
  ⟨threads_count, clients, collectResults (clients.map client_method)⟩

/-- `TestSuite.run_parallel_read_tests` (suite.py lines 165-191): two
fan-out calls — the point read bound to fixed identifiers, then the
aggregate read — each averaged by `sum(r) / self.readers_count`.  A worker
error in either fan-out propagates out of the whole method. -/
def run_parallel_read_tests {C ε : Type} (copy : C → C) (client : C)
    (measure1 measure2 : C → Except ε ℚ) (readers_count : Nat) : Except ε (ℚ × ℚ) :=
  match (run_in_parallel copy client measure1 readers_count).results with
  | Except.error e => Except.error e
  | Except.ok r1 =>
      match (run_in_parallel copy client measure2 readers_count).results with
      | Except.error e => Except.error e
      | Except.ok r2 =>
          Except.ok (r1.sum / (readers_count : ℚ), r2.sum / (readers_count : ℚ))

/-- The suite state touched by the stress tests: how many times `Queue()`
has been constructed for this suite, the current queue contents, and the
`stress_tests_finished` stop signal. -/
structure SuiteState where
  queue_creations : Nat
  queue : List (Option Row)
  stress_tests_finished : Bool
deriving DecidableEq, Repr

/-- `TestSuite.__init__` (suite.py lines 51-58): the one and only
`Queue()` construction (line 53) and the initial stop-signal value
(line 58). -/
def TestSuite_init : SuiteState :=
  ⟨1, [], false⟩

/-- The effect of `iter_queue` on the queue itself: `get` removes items up
to and including the first sentinel. -/
def drainThroughSentinel : List (Option Row) → List (Option Row)
  | [] => []
  | Option.none :: rest => rest
  | some _ :: rest => drainThroughSentinel rest

/-- `max_producing_time = 10` (suite.py line 132). -/
def max_producing_time : Nat := 10

/-- The background write stream of one stress test (suite.py line 133):
`data = test_data(max_producing_time * self.wps)`. -/
def stress_stream (wps : Nat) : List Row :=
  test_data (max_producing_time * wps)

/-- `TestSuite.run_stress_tests` (suite.py lines 127-158) as a state
transformer.  The producer and consumer it starts are fire-and-forget
threads (lines 145-146) that are never joined, so the thread schedule is a
parameter: `stale` is whatever a previous stress test's still-running
producer pushes into the reused queue right after the line-144 flag reset,
and `emitted` is the portion of this test's stream its own producer pushes
before its single sentinel.  What the method itself does is schedule
independent: it constructs no new `Queue` (`queue_creations` unchanged),
resets `stress_tests_finished` to `False` (line 144) and finally sets it
`True` (line 158); in between this test's consumer drains the queue up to
and including the first sentinel it meets.  `stale = []` is the
sequential-completion schedule in which each test's threads finish within
their own test; a nonempty `stale` represents the unjoined-thread
interference the code does not prevent. -/
def run_stress_tests_model (stale : List (Option Row)) (emitted : List Row)
    (s : SuiteState) : SuiteState :=
  let s1 : SuiteState := ⟨s.queue_creations, s.queue, false⟩
  let s2 : SuiteState := ⟨s1.queue_creations, s1.queue ++ stale, s1.stress_tests_finished⟩
  let s3 : SuiteState :=
    ⟨s2.queue_creations, s2.queue ++ emitted.map some ++ [Option.none], s2.stress_tests_finished⟩
  let s4 : SuiteState := ⟨s3.queue_creations, drainThroughSentinel s3.queue, s3.stress_tests_finished⟩
  ⟨s4.queue_creations, s4.queue, true⟩

/-- The per-client data flow of `TestSuite.run` (suite.py lines 63-91)
that the preparation claim is about: which rows reach `insert_data` during
`prepare_database`, and which `(film_id, user_id)` pair parameterizes each
of the three point-read phases. -/
structure RunTrace where
  inserted : List Row
  static_params : Nat × Nat
  stress_params : Nat × Nat
  parallel_params : Nat × Nat
deriving DecidableEq, Repr

/-- Lines 65-84 of suite.py: `initial_data = test_data(self.rows_count)`;
`film_id, user_id, *_ = next(initial_data)` pops the first generated row
(raising `StopIteration`, modelled `Option.none`, on an empty generator);
the remainder of the generator goes to `prepare_database` and hence to
`client.insert_data`; the popped identifiers are passed to
`run_static_tests`, `run_stress_tests` and `run_parallel_read_tests`. -/
def run_one (rows_count : Nat) : Option RunTrace :=
  match test_data rows_count with
  | [] => Option.none
  | first :: rest =>
      some ⟨rest, (first.film_id, first.user_id), (first.film_id, first.user_id),
        (first.film_id, first.user_id)⟩

/-! Helper lemmas about the producer. -/

/-- If the stop signal is observed false at the first `k` checks and true
at check `k`, the loop emits exactly the first `k` rows. -/
theorem produceSteps_rows_take (period : ℚ) (slp : Nat → ℚ → ℚ) :
    ∀ (data : List Row) (stop : Nat → Bool) (k i : Nat) (now np : ℚ),
      (∀ j, j < k → stop (i + j) = false) → stop (i + k) = true →
      (produceSteps period stop slp data i now np).1.map (fun s => s.row) = data.take k := by
  intro data
  induction data with
  | nil => intro stop k i now np _ _; simp [produceSteps]
  | cons r rs ih =>
      intro stop k i now np hbefore hk
      cases k with
      | zero =>
          have h0 : stop i = true := by simpa using hk
          simp [produceSteps, h0]
      | succ k =>
          have h0 : stop i = false := by simpa using hbefore 0 (Nat.succ_pos k)
          have hrec := ih stop k (i + 1) (now + slp i (max 0 (np + period - now))) (np + period)
            (fun j hj => by
              have := hbefore (j + 1) (Nat.succ_lt_succ hj)
              simpa [Nat.add_assoc, Nat.add_comm 1 j] using this)
            (by
              have : i + (k + 1) = i + 1 + k := by omega
              simpa [this] using hk)
          simp [produceSteps, h0, hrec]

/-- Every `produce` call pushes exactly one sentinel. -/
theorem sentinelCount_produceQueue (data : List Row) (period : ℚ) (stop : Nat → Bool)
    (slp : Nat → ℚ → ℚ) (start : ℚ) :
    sentinelCount (produceQueue data period stop slp start) = 1 := by
  simp [sentinelCount, produceQueue, List.filter_append, List.filter_map]

/-- Claim C1: for every finite input sequence and positive rate, when the
stop signal is observed set at some check `k` before the last configured
row, the producer emits exactly the first `k` rows — no further row after
observing the signal — and, whichever way a produce call completes (the
early-stopped run, or any other stop-signal history `stop2`, including
never-set exhaustion), it pushes exactly one sentinel into the shared
queue. -/
theorem C1_producer_early_stop_single_sentinel (data : List Row) (rate : ℚ)
    (stop stop2 : Nat → Bool) (slp : Nat → ℚ → ℚ) (start : ℚ) (k : Nat)
    (hrate : 0 < rate)
    (hbefore : ∀ j, j < k → stop j = false) (hk : stop k = true)
    (hlt : k < data.length) :
    emittedRows data (1 / rate) stop slp start = data.take k ∧
    (emittedRows data (1 / rate) stop slp start).length < data.length ∧
    sentinelCount (produceQueue data (1 / rate) stop slp start) = 1 ∧
    sentinelCount (produceQueue data (1 / rate) stop2 slp start) = 1 := by
  have h1 : emittedRows data (1 / rate) stop slp start = data.take k := by
    have h := produceSteps_rows_take (1 / rate) slp data stop k 0 start start
      (fun j hj => by simpa using hbefore j hj) (by simpa using hk)
    simpa [emittedRows, produceFrom] using h
  refine ⟨h1, ?_, sentinelCount_produceQueue .., sentinelCount_produceQueue ..⟩
  rw [h1, List.length_take]
  omega

/-- Witness for C1 at a concrete three-row input with the signal observed
set at the second check. -/
theorem C1_witness :
    emittedRows [⟨0, 0, 0⟩, ⟨1, 1, 1⟩, ⟨2, 2, 2⟩] (1 / 1) (fun i => decide (1 ≤ i))
        (fun _ q => q) 0 = [⟨0, 0, 0⟩] ∧
    (emittedRows [⟨0, 0, 0⟩, ⟨1, 1, 1⟩, ⟨2, 2, 2⟩] (1 / 1) (fun i => decide (1 ≤ i))
        (fun _ q => q) 0).length < 3 ∧
    sentinelCount (produceQueue [⟨0, 0, 0⟩, ⟨1, 1, 1⟩, ⟨2, 2, 2⟩] (1 / 1)
        (fun i => decide (1 ≤ i)) (fun _ q => q) 0) = 1 ∧
    sentinelCount (produceQueue [⟨0, 0, 0⟩, ⟨1, 1, 1⟩, ⟨2, 2, 2⟩] (1 / 1)
        (fun _ => false) (fun _ q => q) 0) = 1 := by
  have h := C1_producer_early_stop_single_sentinel
    [⟨0, 0, 0⟩, ⟨1, 1, 1⟩, ⟨2, 2, 2⟩] 1 (fun i => decide (1 ≤ i)) (fun _ => false)
    (fun _ q => q) 0 1 (by norm_num) (by decide) (by decide) (by decide)
  simpa using h

/-- The consumer's drain returns precisely when a sentinel appears in the
supply of `get` results. -/
theorem iter_queue_isSome_iff :
    ∀ items : List (Option Row), (iter_queue items).isSome ↔ Option.none ∈ items := by
  intro items
  induction items with
  | nil => simp [iter_queue]
  | cons x rest ih =>
      cases x with
      | none => simp [iter_queue]
      | some r => simpa [iter_queue] using ih

/-- Draining a supply whose first sentinel splits it as
`pre ++ none :: rest` yields exactly the rows of `pre`. -/
theorem iter_queue_split :
    ∀ pre rest : List (Option Row), Option.none ∉ pre →
      iter_queue (pre ++ Option.none :: rest) = some (pre.filterMap id) := by
  intro pre
  induction pre with
  | nil => intro rest _; simp [iter_queue]
  | cons x pre ih =>
      intro rest hx
      cases x with
      | none => simp at hx
      | some r =>
          have hpre : Option.none ∉ pre := fun hmem => hx (List.mem_cons_of_mem _ hmem)
          simp [iter_queue, ih rest hpre]

/-- Claim C2: the consumer's drain loop returns precisely when it has read
a sentinel (reading exactly one — the first — and stopping on it); every
non-sentinel value before that sentinel is forwarded, in order, to the
backend's bulk-write path, no value after the sentinel is forwarded, and
nothing (in particular not the sentinel) is pushed back. -/
theorem C2_consumer_drain (c : ClientState) (items pre rest : List (Option Row))
    (hpre : Option.none ∉ pre) :
    ((iter_queue items).isSome ↔ Option.none ∈ items) ∧
    iter_queue (pre ++ Option.none :: rest) = some (pre.filterMap id) ∧
    consume c (pre ++ Option.none :: rest) = some ⟨c.inserted ++ pre.filterMap id⟩ := by
  refine ⟨iter_queue_isSome_iff items, iter_queue_split pre rest hpre, ?_⟩
  simp [consume, iter_queue_split pre rest hpre]

/-- Witness for C2: two rows before the sentinel are forwarded, the row
after it is not, and the no-sentinel supply never returns. -/
theorem C2_witness :
    ((iter_queue [some ⟨1, 1, 1⟩]).isSome ↔
      Option.none ∈ ([some ⟨1, 1, 1⟩] : List (Option Row))) ∧
    iter_queue ([some ⟨1, 1, 1⟩, some ⟨2, 2, 2⟩] ++ Option.none :: [some ⟨3, 3, 3⟩])
      = some [⟨1, 1, 1⟩, ⟨2, 2, 2⟩] ∧
    consume ⟨[⟨9, 9, 9⟩]⟩ ([some ⟨1, 1, 1⟩, some ⟨2, 2, 2⟩] ++ Option.none :: [some ⟨3, 3, 3⟩])
      = some ⟨[⟨9, 9, 9⟩, ⟨1, 1, 1⟩, ⟨2, 2, 2⟩]⟩ := by
  have h := C2_consumer_drain ⟨[⟨9, 9, 9⟩]⟩ [some ⟨1, 1, 1⟩]
    [some ⟨1, 1, 1⟩, some ⟨2, 2, 2⟩] [some ⟨3, 3, 3⟩] (by decide)
  simpa using h

/-- Schedule invariant of the produce loop: the `j`-th emission step from a
state with `next_produce = np` records target `np + (j+1)·period`, requests
a sleep of exactly `max 0 (target − now)` (hence never negative), and the
first emission happens at the current clock without any preceding sleep. -/
theorem produceSteps_schedule (period : ℚ) (stop : Nat → Bool) (slp : Nat → ℚ → ℚ) :
    ∀ (data : List Row) (i : Nat) (now np : ℚ) (j : Nat) (s : EmitStep)
      (hj : j < (produceSteps period stop slp data i now np).1.length),
      (produceSteps period stop slp data i now np).1.get ⟨j, hj⟩ = s →
      s.target = np + (j + 1) * period ∧
      s.requested = max 0 (s.target - s.time) ∧
      0 ≤ s.requested ∧
      (j = 0 → s.time = now) := by
  intro data
  induction data with
  | nil => intro i now np j s hj; simp [produceSteps] at hj
  | cons r rs ih =>
      intro i now np j s hj hs
      by_cases h0 : stop i
      · simp [produceSteps, h0] at hj
      · cases j with
        | zero =>
            simp [produceSteps, h0] at hs
            subst hs
            refine ⟨by ring, by simp, le_max_left 0 _, fun _ => rfl⟩
        | succ j =>
            have hj2 : j < (produceSteps period stop slp rs (i + 1)
                (now + slp i (max 0 (np + period - now))) (np + period)).1.length := by
              simpa [produceSteps, h0] using hj
            have hs2 : (produceSteps period stop slp rs (i + 1)
                (now + slp i (max 0 (np + period - now))) (np + period)).1.get ⟨j, hj2⟩ = s := by
              simpa [produceSteps, h0] using hs
            have h := ih (i + 1) (now + slp i (max 0 (np + period - now))) (np + period) j s hj2 hs2
            refine ⟨by rw [h.1]; push_cast; ring, h.2.1, h.2.2.1, fun hcon => by simp at hcon⟩

/-- Claim C3: the producer follows a drift-corrected schedule — row 0 is
emitted at the start clock, the recorded target for the row following the
`j`-th emission is `start + (j+1)·(1/rate)`, and the sleep requested after
the `j`-th emission is exactly `max 0 (target − now)`, never a negative
amount, accumulating against the ideal schedule instead of one fixed
period per iteration. -/
theorem C3_producer_drift_corrected_schedule (data : List Row) (rate : ℚ)
    (stop : Nat → Bool) (slp : Nat → ℚ → ℚ) (start : ℚ) (j : Nat) (s : EmitStep)
    (hrate : 0 < rate)
    (hj : j < (produceFrom data (1 / rate) stop slp start).1.length)
    (hs : (produceFrom data (1 / rate) stop slp start).1.get ⟨j, hj⟩ = s) :
    s.target = start + (j + 1) * (1 / rate) ∧
    s.requested = max 0 (s.target - s.time) ∧
    0 ≤ s.requested ∧
    (j = 0 → s.time = start) := by
  exact produceSteps_schedule (1 / rate) stop slp data 0 start start j s hj hs

/-- Witness for C3 at rate 2 from start time 5: the first step is emitted
at time 5, targets 11/2 and requests a sleep of exactly 1/2. -/
theorem C3_witness :
    (⟨5, ⟨0, 0, 0⟩, 11 / 2, 1 / 2⟩ : EmitStep).target = 5 + (0 + 1) * (1 / 2) ∧
    (⟨5, ⟨0, 0, 0⟩, 11 / 2, 1 / 2⟩ : EmitStep).requested
      = max 0 ((⟨5, ⟨0, 0, 0⟩, 11 / 2, 1 / 2⟩ : EmitStep).target
          - (⟨5, ⟨0, 0, 0⟩, 11 / 2, 1 / 2⟩ : EmitStep).time) ∧
    (0 : ℚ) ≤ (⟨5, ⟨0, 0, 0⟩, 11 / 2, 1 / 2⟩ : EmitStep).requested ∧
    ((0 : Nat) = 0 → (⟨5, ⟨0, 0, 0⟩, 11 / 2, 1 / 2⟩ : EmitStep).time = 5) := by
  have hj : 0 < (produceFrom [⟨0, 0, 0⟩, ⟨1, 1, 1⟩] (1 / 2) (fun _ => false)
      (fun _ q => q) 5).1.length := by
    simp [produceFrom, produceSteps]
  have hs : (produceFrom [⟨0, 0, 0⟩, ⟨1, 1, 1⟩] (1 / 2) (fun _ => false)
      (fun _ q => q) 5).1.get ⟨0, hj⟩ = ⟨5, ⟨0, 0, 0⟩, 11 / 2, 1 / 2⟩ := by
    simp [produceFrom, produceSteps]
    norm_num
  have h := C3_producer_drift_corrected_schedule [⟨0, 0, 0⟩, ⟨1, 1, 1⟩] 2
    (fun _ => false) (fun _ q => q) 5 0 ⟨5, ⟨0, 0, 0⟩, 11 / 2, 1 / 2⟩
    (by norm_num) hj hs
  simpa using h

/-- Emission-count bound for the produce loop: starting on schedule
(`np = start + i·period`, clock not before `np`), and with every sleep
lasting at least the requested amount, the number of emissions at times
`≤ B` is bounded by `(B − start)/period + 1 − i`. -/
theorem produceSteps_window_bound (period : ℚ) (stop : Nat → Bool) (slp : Nat → ℚ → ℚ)
    (hper : 0 < period) (hslp : ∀ i q, q ≤ slp i q) (start B : ℚ) :
    ∀ (data : List Row) (i : Nat) (now np : ℚ),
      np = start + i * period → np ≤ now →
      (((produceSteps period stop slp data i now np).1.filter
          (fun s => decide (s.time ≤ B))).length : ℚ)
        ≤ max 0 ((B - start) / period + 1 - i) := by
  intro data
  induction data with
  | nil =>
      intro i now np hnp hle
      simp [produceSteps]
  | cons r rs ih =>
      intro i now np hnp hle
      by_cases h0 : stop i
      · simp [produceSteps, h0]
      · have hunfold : (produceSteps period stop slp (r :: rs) i now np).1
            = ⟨now, r, np + period, max 0 (np + period - now)⟩ ::
              (produceSteps period stop slp rs (i + 1)
                (now + slp i (max 0 (np + period - now))) (np + period)).1 := by
          simp [produceSteps, h0]
        have hnow2 : np + period ≤ now + slp i (max 0 (np + period - now)) := by
          have h1 : np + period - now ≤ max 0 (np + period - now) := le_max_right _ _
          have h2 : max 0 (np + period - now) ≤ slp i (max 0 (np + period - now)) := hslp _ _
          linarith
        have hrec := ih (i + 1) (now + slp i (max 0 (np + period - now))) (np + period)
          (by rw [hnp]; push_cast; ring) hnow2
        rw [hunfold]
        by_cases hB : now ≤ B
        · have hi2 : (i : ℚ) ≤ (B - start) / period := by
            rw [le_div_iff hper]
            have : start + (i : ℚ) * period ≤ B := by rw [← hnp]; linarith
            linarith
          have hmax2 : max 0 ((B - start) / period + 1 - ((i : ℚ) + 1))
              = (B - start) / period + 1 - ((i : ℚ) + 1) :=
            max_eq_right (by linarith)
          rw [List.filter_cons_of_pos (by simpa using hB), List.length_cons]
          push_cast at hrec ⊢
          rw [hmax2] at hrec
          have hub : (B - start) / period + 1 - (i : ℚ) ≤ max 0 ((B - start) / period + 1 - i) :=
            le_max_right _ _
          linarith
        · rw [List.filter_cons_of_neg (by simpa using hB)]
          refine le_trans hrec (max_le_max le_rfl ?_)
          push_cast
          linarith

/-- Claim C4 (amended): for a positive target rate and any window of
length `T ≥ 0` anchored at the producer's start time, when every sleep
completes no earlier than requested the producer emits at most
`rate·T + 1` rows at times within that window. -/
theorem C4_rate_bound_from_start (data : List Row) (rate : ℚ) (stop : Nat → Bool)
    (slp : Nat → ℚ → ℚ) (start T : ℚ)
    (hrate : 0 < rate) (hT : 0 ≤ T) (hslp : ∀ i q, q ≤ slp i q) :
    (((produceFrom data (1 / rate) stop slp start).1.filter
        (fun s => decide (s.time ≤ start + T))).length : ℚ) ≤ rate * T + 1 := by
  have hper : 0 < 1 / rate := by positivity
  have h := produceSteps_window_bound (1 / rate) stop slp hper hslp start (start + T)
    data 0 start start (by push_cast; ring) le_rfl
  have hdiv : (start + T - start) / (1 / rate) = T * rate := by
    field_simp
  rw [hdiv] at h
  simp only [Nat.cast_zero, sub_zero] at h
  have hmax : max 0 (T * rate + 1) = T * rate + 1 := max_eq_right (by nlinarith)
  rw [hmax] at h
  unfold produceFrom
  rw [mul_comm rate T]
  linarith

/-- Witness for the amended C4 at rate 1, window length 1, exact sleeps:
both rows fall in the window and 2 ≤ 1·1 + 1. -/
theorem C4_rate_bound_witness :
    (((produceFrom [⟨0, 0, 0⟩, ⟨1, 1, 1⟩] (1 / 1) (fun _ => false)
        (fun _ q => q) 0).1.filter
        (fun s => decide (s.time ≤ 0 + 1))).length : ℚ) ≤ 1 * 1 + 1 :=
  C4_rate_bound_from_start [⟨0, 0, 0⟩, ⟨1, 1, 1⟩] 1 (fun _ => false) (fun _ q => q) 0 1
    (by norm_num) (by norm_num) (fun _ q => le_refl q)

/-- Counterexample to C4 as stated: every sleep completes no earlier than
requested (the first overruns by 9 s, the rest are exact), the target rate
is 1, yet the window [10, 10 + 1/2] of length T = 1/2 contains 2
emissions while the claimed bound is R·T + 1 = 3/2 — the bound fails for
windows not anchored at the start. -/
theorem C4_counterexample :
    (∀ (i : Nat) (q : ℚ), q ≤ if i = 0 then q + 9 else q) ∧
    ((produceFrom [⟨0, 0, 0⟩, ⟨1, 1, 1⟩, ⟨2, 2, 2⟩] (1 / 1) (fun _ => false)
        (fun i q => if i = 0 then q + 9 else q) 0).1.filter
        (fun s => decide ((10 : ℚ) ≤ s.time ∧ s.time ≤ 10 + 1 / 2))).length = 2 ∧
    ¬ ((2 : ℚ) ≤ 1 * (1 / 2) + 1) := by
  refine ⟨fun i q => ?_, ?_, by norm_num⟩
  · by_cases h : i = 0 <;> simp [h]
  · norm_num [produceFrom, produceSteps, List.filter]

/-- If every worker outcome is a success, collecting yields a success list
of the same length. -/
theorem collectResults_ok_of_all {ε : Type} :
    ∀ rs : List (Except ε ℚ), (∀ r ∈ rs, ∃ q, r = Except.ok q) →
      ∃ l, collectResults rs = Except.ok l ∧ l.length = rs.length := by
  intro rs
  induction rs with
  | nil => intro _; exact ⟨[], rfl, rfl⟩
  | cons r rest ih =>
      intro h
      obtain ⟨q, hq⟩ := h r (List.mem_cons_self r rest)
      obtain ⟨l, hl, hlen⟩ := ih (fun x hx => h x (List.mem_cons_of_mem r hx))
      subst hq
      exact ⟨q :: l, by simp [collectResults, hl, Except.map], by simp [hlen]⟩

/-- A successfully collected result list has one entry per worker
outcome. -/
theorem collectResults_ok_length {ε : Type} :
    ∀ (rs : List (Except ε ℚ)) (l : List ℚ),
      collectResults rs = Except.ok l → l.length = rs.length := by
  intro rs
  induction rs with
  | nil =>
      intro l hl
      simp only [collectResults] at hl
      injection hl with h3
      simp [← h3]
  | cons r rest ih =>
      intro l hl
      cases r with
      | error e => simp [collectResults] at hl
      | ok q =>
          simp only [collectResults] at hl
          cases h2 : collectResults rest with
          | error e => rw [h2] at hl; simp [Except.map] at hl
          | ok l2 =>
              rw [h2] at hl
              simp only [Except.map] at hl
              injection hl with h3
              simp [← h3, ih l2 h2]

/-- Claim C5: one fan-out invocation with `readers_count = N ≥ 1` builds
its worker list by exactly N `copy()` calls on the template handle (each
worker slot holds a clone result, never the template binding itself),
sizes the pool at exactly N, and — when every worker's measurement
returns — produces exactly N duration results. -/
theorem C5_fanout_clone_pool_result_counts {C ε : Type} (copy : C → C) (client : C)
    (client_method : C → Except ε ℚ) (n : Nat)
    (hn : 1 ≤ n)
    (hok : ∀ c, ∃ q, client_method c = Except.ok q) :
    (run_in_parallel copy client client_method n).workers.length = n ∧
    (∀ w ∈ (run_in_parallel copy client client_method n).workers, w = copy client) ∧
    (run_in_parallel copy client client_method n).poolSize = n ∧
    ∃ l, (run_in_parallel copy client client_method n).results = Except.ok l ∧
      l.length = n := by
  refine ⟨by simp [run_in_parallel], ?_, rfl, ?_⟩
  · intro w hw
    simp [run_in_parallel] at hw
    exact hw.2
  · obtain ⟨l, hl, hlen⟩ := collectResults_ok_of_all
      ((((List.range n).map (fun _ => copy client)).map client_method))
      (by
        intro r hr
        rw [List.mem_map] at hr
        obtain ⟨c, hc, rfl⟩ := hr
        rw [List.mem_map] at hc
        obtain ⟨i, hi, rfl⟩ := hc
        exact hok (copy client))
    exact ⟨l, hl, by simpa using hlen⟩

/-- Witness for C5 with three readers over a counting handle whose
measurement always succeeds. -/
theorem C5_witness :
    (run_in_parallel (fun c => c + 1) 0
      (fun _ => (Except.ok (2 : ℚ) : Except Unit ℚ)) 3).workers.length = 3 ∧
    (run_in_parallel (fun c => c + 1) 0
      (fun _ => (Except.ok (2 : ℚ) : Except Unit ℚ)) 3).poolSize = 3 ∧
    ∃ l, (run_in_parallel (fun c => c + 1) 0
        (fun _ => (Except.ok (2 : ℚ) : Except Unit ℚ)) 3).results = Except.ok l ∧
      l.length = 3 := by
  have h := C5_fanout_clone_pool_result_counts (fun c => c + 1) 0
    (fun _ => (Except.ok (2 : ℚ) : Except Unit ℚ)) 3 (by norm_num) (fun c => ⟨2, rfl⟩)
  exact ⟨h.1, h.2.2.1, h.2.2.2⟩

/-- Claim C6: when both fan-out calls of `run_parallel_read_tests` return
duration lists (necessarily of length `readers_count`), each reported
parallel-read latency equals the arithmetic mean of the corresponding N
durations — their sum divided by N — for the point read and for the
aggregate read alike. -/
theorem C6_parallel_latency_is_mean {C ε : Type} (copy : C → C) (client : C)
    (measure1 measure2 : C → Except ε ℚ) (n : Nat) (r1 r2 : List ℚ)
    (h1 : (run_in_parallel copy client measure1 n).results = Except.ok r1)
    (h2 : (run_in_parallel copy client measure2 n).results = Except.ok r2) :
    r1.length = n ∧ r2.length = n ∧
    run_parallel_read_tests copy client measure1 measure2 n
      = Except.ok (r1.sum / (r1.length : ℚ), r2.sum / (r2.length : ℚ)) := by
  have hl1 : r1.length = n := by
    have h := collectResults_ok_length
      ((((List.range n).map (fun _ => copy client)).map measure1)) r1 h1
    simpa using h
  have hl2 : r2.length = n := by
    have h := collectResults_ok_length
      ((((List.range n).map (fun _ => copy client)).map measure2)) r2 h2
    simpa using h
  refine ⟨hl1, hl2, ?_⟩
  rw [run_parallel_read_tests, h1, h2, hl1, hl2]

/-- Witness for C6 with three readers, each measuring 2 s: the reported
pair is the mean (6/3, 6/3). -/
theorem C6_witness :
    (([2, 2, 2] : List ℚ).length = 3) ∧
    (([4, 4, 4] : List ℚ).length = 3) ∧
    run_parallel_read_tests (fun c => c + 1) (0 : Nat)
        (fun _ => (Except.ok (2 : ℚ) : Except Unit ℚ))
        (fun _ => (Except.ok (4 : ℚ) : Except Unit ℚ)) 3
      = Except.ok (([2, 2, 2] : List ℚ).sum / (([2, 2, 2] : List ℚ).length : ℚ),
          ([4, 4, 4] : List ℚ).sum / (([4, 4, 4] : List ℚ).length : ℚ)) := by
  have h := C6_parallel_latency_is_mean (fun c => c + 1) (0 : Nat)
    (fun _ => (Except.ok (2 : ℚ) : Except Unit ℚ))
    (fun _ => (Except.ok (4 : ℚ) : Except Unit ℚ)) 3 [2, 2, 2] [4, 4, 4] rfl rfl
  exact h

/-- Claim C7: a worker failure inside the fan-out aborts the whole call —
the collected outcome is that error, no duration list is returned, and the
enclosing parallel-read phase propagates the same error instead of
averaging the successful siblings. -/
theorem C7_worker_failure_aborts_fanout {C ε : Type} (copy : C → C) (client : C)
    (client_method measure2 : C → Except ε ℚ) (n : Nat) (e : ε)
    (hn : 1 ≤ n) (he : client_method (copy client) = Except.error e) :
    (run_in_parallel copy client client_method n).results = Except.error e ∧
    (∀ l, (run_in_parallel copy client client_method n).results ≠ Except.ok l) ∧
    run_parallel_read_tests copy client client_method measure2 n = Except.error e := by
  have herr : (run_in_parallel copy client client_method n).results = Except.error e := by
    cases n with
    | zero => omega
    | succ m =>
        simp only [run_in_parallel, List.range_succ_eq_map, List.map_cons, List.map_map]
        simp [collectResults, he]
  refine ⟨herr, fun l hl => ?_, ?_⟩
  · rw [herr] at hl
    exact Except.noConfusion hl
  · rw [run_parallel_read_tests, herr]

/-- Witness for C7 with two readers whose measurement always raises. -/
theorem C7_witness :
    (run_in_parallel (fun c => c + 1) (0 : Nat)
        (fun _ => (Except.error () : Except Unit ℚ)) 2).results = Except.error () ∧
    (∀ l, (run_in_parallel (fun c => c + 1) (0 : Nat)
        (fun _ => (Except.error () : Except Unit ℚ)) 2).results ≠ Except.ok l) ∧
    run_parallel_read_tests (fun c => c + 1) (0 : Nat)
        (fun _ => (Except.error () : Except Unit ℚ))
        (fun _ => (Except.ok (1 : ℚ) : Except Unit ℚ)) 2 = Except.error () := by
  exact C7_worker_failure_aborts_fanout (fun c => c + 1) (0 : Nat)
    (fun _ => (Except.error () : Except Unit ℚ))
    (fun _ => (Except.ok (1 : ℚ) : Except Unit ℚ)) 2 () (by norm_num) rfl

/-- Draining a producer batch (rows then one sentinel) empties it. -/
theorem drainThroughSentinel_batch (rows : List Row) :
    drainThroughSentinel (rows.map some ++ [Option.none]) = [] := by
  induction rows with
  | nil => rfl
  | cons r rs ih => simpa [drainThroughSentinel] using ih

/-- Counterexample to C8 as stated: after the suite has run two stress
tests, exactly one `Queue()` construction has happened — the one in
`__init__` — not one per stress test, so the shared queue is not created
fresh for each stress test. -/
theorem C8_counterexample :
    (run_stress_tests_model [] (stress_stream 1)
        (run_stress_tests_model [] (stress_stream 1) TestSuite_init)).queue_creations = 1 ∧
    ¬ (run_stress_tests_model [] (stress_stream 1)
        (run_stress_tests_model [] (stress_stream 1) TestSuite_init)).queue_creations = 2 := by
  constructor
  · rfl
  · intro h
    simp [run_stress_tests_model, TestSuite_init] at h

/-- Claim C8 (amended): the shared queue is constructed exactly once per
suite, in `__init__`, and reused by every stress test and every run — no
stress test constructs a queue, whatever the thread schedule (`other`
arbitrary), and each resets the stop signal to `False` at its start and
leaves it `True` at its end.  Provided each test's fire-and-forget
producer and consumer complete within their own test (`stale = []` — the
code never joins these threads, so this is an assumption on the schedule,
not something the code enforces), a stress test started from an empty
queue leaves the queue empty again, so no queue contents, sentinel values
or stop-signal values leak into the next stress test, backend or run, and
repeating the run reproduces the identical state.  Without that
assumption the guarantee fails: a stale sentinel from a previous test's
unjoined producer makes this test's consumer return early, and the test's
own rows and sentinel remain queued past its end (last conjunct). -/
theorem C8_queue_reused_no_leak (stale other : List (Option Row)) (emitted : List Row)
    (s : SuiteState) (hq : s.queue = []) (hstale : stale = []) :
    TestSuite_init.queue_creations = 1 ∧
    (run_stress_tests_model other emitted s).queue_creations = s.queue_creations ∧
    (run_stress_tests_model other emitted s).stress_tests_finished = true ∧
    (run_stress_tests_model stale emitted s).queue = [] ∧
    run_stress_tests_model stale emitted (run_stress_tests_model stale emitted s)
      = run_stress_tests_model stale emitted s ∧
    (run_stress_tests_model [Option.none] emitted s).queue
      = emitted.map some ++ [Option.none] := by
  subst hstale
  have hrun : run_stress_tests_model [] emitted s = ⟨s.queue_creations, [], true⟩ := by
    simp [run_stress_tests_model, hq, drainThroughSentinel_batch]
  refine ⟨rfl, rfl, rfl, by simp [hrun], ?_, ?_⟩
  · rw [hrun]
    simp [run_stress_tests_model, drainThroughSentinel_batch]
  · simp [run_stress_tests_model, hq, drainThroughSentinel]

/-- Witness for the amended C8: one full stress test from the freshly
initialized suite state, with an interfering schedule (`other` a stale
row) exercising the schedule-independent conjuncts. -/
theorem C8_witness :
    TestSuite_init.queue_creations = 1 ∧
    (run_stress_tests_model [some ⟨7, 7, 7⟩] (stress_stream 1) TestSuite_init).queue_creations
      = TestSuite_init.queue_creations ∧
    (run_stress_tests_model [some ⟨7, 7, 7⟩] (stress_stream 1)
        TestSuite_init).stress_tests_finished = true ∧
    (run_stress_tests_model [] (stress_stream 1) TestSuite_init).queue = [] ∧
    run_stress_tests_model [] (stress_stream 1)
        (run_stress_tests_model [] (stress_stream 1) TestSuite_init)
      = run_stress_tests_model [] (stress_stream 1) TestSuite_init ∧
    (run_stress_tests_model [Option.none] (stress_stream 1) TestSuite_init).queue
      = (stress_stream 1).map some ++ [Option.none] :=
  C8_queue_reused_no_leak [] [some ⟨7, 7, 7⟩] (stress_stream 1) TestSuite_init rfl rfl

/-- Claim C9: for rows_count ≥ 1, the PREPARING phase bulk-inserts exactly
rows_count − 1 rows — the first generated row is consumed by `next()` for
its `film_id`/`user_id`, is itself never inserted, and that same pair
parameterizes the static, under-load and parallel point-read phases. -/
theorem C9_prepare_inserts_all_but_first (rows_count : Nat) (h : 1 ≤ rows_count) :
    ∃ (t : RunTrace) (first : Row) (rest : List Row),
      test_data rows_count = first :: rest ∧
      run_one rows_count = some t ∧
      t.inserted = rest ∧
      t.inserted.length = rows_count - 1 ∧
      first ∉ t.inserted ∧
      t.static_params = (first.film_id, first.user_id) ∧
      t.stress_params = (first.film_id, first.user_id) ∧
      t.parallel_params = (first.film_id, first.user_id) := by
  obtain ⟨m, rfl⟩ : ∃ m, rows_count = m + 1 := ⟨rows_count - 1, by omega⟩
  have htd : test_data (m + 1)
      = ⟨0, 0, 0⟩ :: (List.range m).map (fun i => ⟨i + 1, i + 1, i + 1⟩) := by
    simp [test_data, List.range_succ_eq_map, Function.comp]
  refine ⟨⟨(List.range m).map (fun i => ⟨i + 1, i + 1, i + 1⟩), (0, 0), (0, 0), (0, 0)⟩,
    ⟨0, 0, 0⟩, (List.range m).map (fun i => ⟨i + 1, i + 1, i + 1⟩),
    htd, by simp [run_one, htd], rfl, by simp, ?_, rfl, rfl, rfl⟩
  intro hmem
  simp [List.mem_map] at hmem

/-- Witness for C9 with rows_count = 3: two rows are inserted and the
first row's identifiers drive all three point-read phases. -/
theorem C9_witness :
    ∃ (t : RunTrace) (first : Row) (rest : List Row),
      test_data 3 = first :: rest ∧
      run_one 3 = some t ∧
      t.inserted = rest ∧
      t.inserted.length = 3 - 1 ∧
      first ∉ t.inserted ∧
      t.static_params = (first.film_id, first.user_id) ∧
      t.stress_params = (first.film_id, first.user_id) ∧
      t.parallel_params = (first.film_id, first.user_id) :=
  C9_prepare_inserts_all_but_first 3 (by norm_num)

/-- The produce loop performs at most one emission per input row. -/
theorem produceSteps_length_le (period : ℚ) (slp : Nat → ℚ → ℚ) :
    ∀ (data : List Row) (stop : Nat → Bool) (i : Nat) (now np : ℚ),
      (produceSteps period stop slp data i now np).1.length ≤ data.length := by
  intro data
  induction data with
  | nil => intro stop i now np; simp [produceSteps]
  | cons r rs ih =>
      intro stop i now np
      by_cases h0 : stop i
      · simp [produceSteps, h0]
      · simpa [produceSteps, h0, Nat.succ_le_succ_iff] using ih stop (i + 1) _ _

/-- With the stop signal never observed set, the loop emits every row. -/
theorem produceSteps_length_all (period : ℚ) (slp : Nat → ℚ → ℚ) :
    ∀ (data : List Row) (i : Nat) (now np : ℚ),
      (produceSteps period (fun _ => false) slp data i now np).1.length = data.length := by
  intro data
  induction data with
  | nil => intro i now np; simp [produceSteps]
  | cons r rs ih => intro i now np; simpa [produceSteps] using ih (i + 1) _ _

/-- Claim C10: the background write stream of each stress test is exactly
`10 × wps` rows (`max_producing_time = 10` hard-coded), so the producer's
loop terminates after at most `10 × wps` iterations — and with the stop
signal never observed set it emits exactly `10 × wps` rows. -/
theorem C10_stream_and_termination_bound (wps : Nat) (period : ℚ) (stop : Nat → Bool)
    (slp : Nat → ℚ → ℚ) (start : ℚ) (hw : 1 ≤ wps) :
    (stress_stream wps).length = 10 * wps ∧
    (emittedRows (stress_stream wps) period stop slp start).length ≤ 10 * wps ∧
    (emittedRows (stress_stream wps) period (fun _ => false) slp start).length
      = 10 * wps := by
  have hlen : (stress_stream wps).length = 10 * wps := by
    simp [stress_stream, test_data, max_producing_time]
  refine ⟨hlen, ?_, ?_⟩
  · have h := produceSteps_length_le period slp (stress_stream wps) stop 0 start start
    simpa [emittedRows, produceFrom, hlen] using h
  · have h := produceSteps_length_all period slp (stress_stream wps) 0 start start
    simpa [emittedRows, produceFrom, hlen] using h

/-- Witness for C10 at wps = 1: the stream is 10 rows, the never-stopped
producer emits exactly 10 rows, and any stop history emits at most 10. -/
theorem C10_witness :
    (stress_stream 1).length = 10 * 1 ∧
    (emittedRows (stress_stream 1) 1 (fun i => decide (5 ≤ i)) (fun _ q => q) 0).length
      ≤ 10 * 1 ∧
    (emittedRows (stress_stream 1) 1 (fun _ => false) (fun _ q => q) 0).length = 10 * 1 :=
  C10_stream_and_termination_bound 1 1 (fun i => decide (5 ≤ i)) (fun _ q => q) 0
    (by norm_num)
